import Mathlib

/-!
Verification of the task-manager repository's client-side logic.

Shallow embedding conventions:
* Timestamps (ISO-8601 strings in the source) are modelled as `Int`
  epoch milliseconds; `new Date(s).getTime()` is the identity and
  `new Date().toISOString()` is an explicit `now` parameter.
  Comparison of ISO strings of the same format agrees with the numeric
  order, so all ordering logic is preserved.
* Optional / nullable JS values are `Option`.
* `Array.prototype.sort(cmp)` (stable, consistent comparator) is
  embedded as `List.insertionSort` over the relation `cmp a b ≤ 0`.
-/

namespace TaskManager

/-- Priority enum of a task: `'low' | 'medium' | 'high'` in the source. -/
inductive Priority
  | low
  | medium
  | high
deriving DecidableEq, Repr

/-- The `Task` row as used by the components (`src/lib/supabase` interface
plus the `priority` and `completed_at` columns used by
`TaskList`/`database.tasks.toggleComplete`). -/
structure Task where
  id : String
  title : String
  description : Option String
  completed : Bool
  due_date : Option Int
  reminder_date : Option Int
  priority : Priority
  category_id : Option String
  user_id : String
  created_at : Int
  updated_at : Int
  completed_at : Option Int
deriving DecidableEq, Repr

/-- The `Category` row (`id`, `name`, `color`, optional `description`,
`user_id`, timestamps; timestamps omitted as no claim reads them). -/
structure Category where
  id : String
  name : String
  color : String
  description : Option String
  user_id : String
deriving DecidableEq, Repr

namespace db

/-- `database.tasks.toggleComplete` (src/unnamed/part_003 lines 71-83):
the single update payload
`{ completed, updated_at: now, completed_at: completed ? now : null }`
applied to the matched row; the returned row (`.select().single()`) is the
row with exactly those three columns overwritten. -/
def toggleComplete (t : Task) (completed : Bool) (now : Int) : Task :=
  { t with
    completed := completed
    updated_at := now
    completed_at := if completed then some now else none }

end db

end TaskManager

open TaskManager

/-- Claim C1: for every task row, completion flag and timestamp, the
toggle-completion operation writes `completed`, `updated_at` and
`completed_at` in one update (all other columns of the result row are
unchanged), and in the result row `completed_at` is non-null iff
`completed` is true: toggling to true stamps `completed_at` with the
current time, toggling to false clears it to null. -/
theorem c1_toggle_complete_invariant (t : Task) (c : Bool) (now : Int) :
    (db.toggleComplete t c now).completed = c ∧
    (db.toggleComplete t c now).updated_at = now ∧
    (db.toggleComplete t c now).completed_at
      = (if c then some now else none) ∧
    (db.toggleComplete t c now).completed_at.isSome
      = (db.toggleComplete t c now).completed ∧
    (db.toggleComplete t c now).id = t.id ∧
    (db.toggleComplete t c now).title = t.title ∧
    (db.toggleComplete t c now).description = t.description ∧
    (db.toggleComplete t c now).due_date = t.due_date ∧
    (db.toggleComplete t c now).reminder_date = t.reminder_date ∧
    (db.toggleComplete t c now).priority = t.priority ∧
    (db.toggleComplete t c now).category_id = t.category_id ∧
    (db.toggleComplete t c now).user_id = t.user_id ∧
    (db.toggleComplete t c now).created_at = t.created_at := by
  cases c <;> simp [db.toggleComplete]

namespace TaskManager

namespace TaskList

/-- JS `String.prototype.toLowerCase` (ASCII, as `Char.toLower`). -/
def jsToLower (s : String) : String := ⟨s.data.map Char.toLower⟩

/-- Helper for `jsIncludes`: does `needle` occur at the head of `hay`? -/
def startsWithChars : List Char → List Char → Bool
  | _, [] => true
  | [], _ :: _ => false
  | c :: hs, n :: ns => c == n && startsWithChars hs ns

/-- Helper for `jsIncludes`: does `needle` occur anywhere in `hay`? -/
def includesChars : List Char → List Char → Bool
  | [], needle => needle.isEmpty
  | c :: t, needle => startsWithChars (c :: t) needle || includesChars t needle

/-- JS `hay.includes(needle)`: contiguous substring containment. -/
def jsIncludes (hay needle : String) : Bool := includesChars hay.data needle.data

/-- The search stage of `TaskList.filteredAndSortedTasks`
(src/unnamed/part_009 lines 288-295): when `searchTerm` is truthy
(non-empty) the task is dropped unless its lowercased title or its
lowercased description (if present) includes the lowercased term. -/
def searchPred (searchTerm : String) (task : Task) : Bool :=
  if searchTerm.isEmpty then true
  else
    let searchLower := jsToLower searchTerm
    jsIncludes (jsToLower task.title) searchLower ||
      (match task.description with
       | some d => jsIncludes (jsToLower d) searchLower
       | none => false)

/-- The `filterStatus` state values `'all' | 'pending' | 'completed'`. -/
inductive FilterStatus
  | all
  | pending
  | completed
deriving DecidableEq, Repr

/-- The status stage of `TaskList.filteredAndSortedTasks`
(lines 297-301): `pending` drops completed tasks, `completed` drops
pending tasks, anything else passes. -/
def statusPred (filterStatus : FilterStatus) (task : Task) : Bool :=
  if filterStatus == .pending && task.completed then false
  else if filterStatus == .completed && !task.completed then false
  else true

/-- The single filter callback of `tasks.filter(...)` in
`filteredAndSortedTasks`: search stage then status stage. -/
def filterPred (searchTerm : String) (filterStatus : FilterStatus) (task : Task) : Bool :=
  searchPred searchTerm task && statusPred filterStatus task

/-- The filtered (not yet sorted) task list of
`TaskList.filteredAndSortedTasks`. -/
def filteredTasks (searchTerm : String) (filterStatus : FilterStatus)
    (tasks : List Task) : List Task :=
  tasks.filter (filterPred searchTerm filterStatus)

/-- The `due_date` comparator of the `.sort` in
`filteredAndSortedTasks` (lines 305-309): both dates missing compare
equal, a missing date sorts after any present date, otherwise the
difference of the timestamps. -/
def dueDateCmp (a b : Task) : Int :=
  match a.due_date, b.due_date with
  | none, none => 0
  | none, some _ => 1
  | some _, none => -1
  | some x, some y => x - y

/-- `a` may be placed before `b` by a JS sort with comparator
`dueDateCmp`: the comparator is non-positive. -/
def dueLe (a b : Task) : Prop := dueDateCmp a b ≤ 0

instance : DecidableRel dueLe := fun a b => Int.decLe (dueDateCmp a b) 0

instance : IsTotal Task dueLe :=
  ⟨fun a b => by
    unfold dueLe dueDateCmp
    rcases a.due_date with _ | x <;> rcases b.due_date with _ | y <;>
      simp <;> omega⟩

instance : IsTrans Task dueLe :=
  ⟨fun a b c => by
    unfold dueLe dueDateCmp
    rcases a.due_date with _ | x <;> rcases b.due_date with _ | y <;>
      rcases c.due_date with _ | z <;> simp <;> omega⟩

/-- `tasks.sort(dueDateComparator)`: a stable comparator sort, embedded
as insertion sort over `dueLe`. -/
def sortByDueDate (tasks : List Task) : List Task :=
  List.insertionSort dueLe tasks

/-- The rank table `{ high: 3, medium: 2, low: 1 }` used by the
priority comparator (line 312). -/
def priorityOrder : Priority → Int
  | .high => 3
  | .medium => 2
  | .low => 1

/-- The `priority` comparator of the `.sort` (line 313):
`priorityOrder[b.priority] - priorityOrder[a.priority]`. -/
def priorityCmp (a b : Task) : Int :=
  priorityOrder b.priority - priorityOrder a.priority

/-- `a` may be placed before `b` by a JS sort with comparator
`priorityCmp`. -/
def priorityLe (a b : Task) : Prop := priorityCmp a b ≤ 0

instance : DecidableRel priorityLe := fun a b => Int.decLe (priorityCmp a b) 0

instance : IsTotal Task priorityLe :=
  ⟨fun a b => by
    unfold priorityLe priorityCmp priorityOrder
    cases a.priority <;> cases b.priority <;> simp <;> omega⟩

instance : IsTrans Task priorityLe :=
  ⟨fun a b c => by
    unfold priorityLe priorityCmp priorityOrder
    cases a.priority <;> cases b.priority <;> cases c.priority <;>
      simp <;> omega⟩

/-- `tasks.sort(priorityComparator)`: stable comparator sort, embedded
as insertion sort over `priorityLe`. -/
def sortByPriority (tasks : List Task) : List Task :=
  List.insertionSort priorityLe tasks

/-- `TaskList.handleToggleComplete` (lines 280-284): replaces only the
`completed` flag of the rows whose id matches; every other field of the
matching row, and every other row, is kept as-is.  (The server row
returned by `database.tasks.toggleComplete` is discarded by the caller
`TaskItem.handleToggleComplete`, which passes up only the id and the
new flag.) -/
def handleToggleComplete (tasks : List Task) (taskId : String) (completed : Bool) :
    List Task :=
  tasks.map fun task =>
    if task.id == taskId then { task with completed := completed } else task

/-- `TaskList.handleTaskSave` (lines 243-255): when the form was
editing, the server-returned row replaces rows with the matching id;
otherwise the server-returned row is prepended. -/
def handleTaskSave (tasks : List Task) (isEditing : Bool) (savedTask : Task) :
    List Task :=
  if isEditing then
    tasks.map fun task => if task.id == savedTask.id then savedTask else task
  else
    savedTask :: tasks

/-- `TaskList.handleTaskDelete` success path (line 271): drops the rows
whose id matches. -/
def handleTaskDeleteSuccess (tasks : List Task) (taskId : String) : List Task :=
  tasks.filter fun task => !(task.id == taskId)

/-- A CRUD action as dispatched by the Task List Controller, carrying
the row the Data Access Layer returned for it (for delete, only the
id). -/
inductive TaskAction
  | create (serverRow : Task)
  | update (serverRow : Task)
  | toggle (taskId : String) (completed : Bool) (serverRow : Task)
  | remove (taskId : String)

/-- One controller action applied to the in-memory `tasks` array, as
the source does it: on failure every handler leaves the array alone
(the error toast is the only effect); on success `handleTaskSave`,
`handleToggleComplete` or the delete filter runs.  The `toggle` case
ignores the server-returned row: `TaskItem` passes only
`(task.id, !task.completed)` up to `TaskList.handleToggleComplete`. -/
def controllerStep (tasks : List Task) : TaskAction → Bool → List Task
  | .create row, true => handleTaskSave tasks false row
  | .update row, true => handleTaskSave tasks true row
  | .toggle taskId completed _, true => handleToggleComplete tasks taskId completed
  | .remove taskId, true => handleTaskDeleteSuccess tasks taskId
  | _, false => tasks

/-- The reconciliation exactly as claim C2 words it: create prepends the
server-returned row, update AND TOGGLE replace the matching row by the
server-returned row, delete removes the matching row, failure leaves
the array untouched.  Written from the claim for comparison with
`controllerStep`. -/
def claimedReconcile (tasks : List Task) : TaskAction → Bool → List Task
  | .create row, true => row :: tasks
  | .update row, true =>
    tasks.map fun task => if task.id == row.id then row else task
  | .toggle _ _ row, true =>
    tasks.map fun task => if task.id == row.id then row else task
  | .remove taskId, true => tasks.filter fun task => !(task.id == taskId)
  | _, false => tasks

end TaskList

end TaskManager

namespace TaskManager

namespace db

/-- `database.tasks.getUpcoming` (src/unnamed/part_003 lines 93-113),
evaluated over the remote table's rows: `futureDate` is `days` days
from `now`; the query keeps the rows with `user_id = userId`,
`completed = false` and `due_date <= futureDate` (an SQL comparison,
false for a null `due_date`), ordered ascending by `due_date`
(Postgres ascending order, nulls last, matches `dueLe`). -/
def getUpcoming (rows : List Task) (userId : String) (now : Int) (days : Int) :
    List Task :=
  let futureDate := now + days * 86400000
  List.insertionSort TaskList.dueLe
    (rows.filter fun t =>
      t.user_id == userId && t.completed == false &&
        (match t.due_date with
         | some d => decide (d ≤ futureDate)
         | none => false))

end db

namespace TaskList

/-- The upcoming-tasks query as claim C7 words it: exactly the owner's
tasks that are not completed and are due within `days` days from `now`
— a due date between `now` and `now + days` days — soonest first.
Written from the claim for comparison with `db.getUpcoming`. -/
def claimedUpcoming (rows : List Task) (userId : String) (now : Int) (days : Int) :
    List Task :=
  List.insertionSort dueLe
    (rows.filter fun t =>
      t.user_id == userId && !t.completed &&
        (match t.due_date with
         | some d => decide (now ≤ d) && decide (d ≤ now + days * 86400000)
         | none => false))

end TaskList

/-- JS `String.prototype.trim`: leading and trailing whitespace
removed. -/
def jsTrim (s : String) : String :=
  ⟨((s.data.dropWhile Char.isWhitespace).reverse.dropWhile
      Char.isWhitespace).reverse⟩

/-- A JS runtime exception, as far as this code can raise one. -/
inductive JsError
  | typeError
deriving DecidableEq, Repr

/-- Error categories of `src/lib/error-handler` (`ErrorType` enum,
src/unnamed/part_002 lines 108-116). -/
inductive ErrorType
  | authentication
  | authorization
  | validation
  | network
  | database
  | notFound
  | unknown
deriving DecidableEq, Repr

/-- The structured error value of `src/lib/error-handler` (`AppError`,
lines 121-127; the optional `originalError`/`code`/`details` fields are
omitted, no claim reads them). -/
structure AppError where
  type : ErrorType
  message : String
deriving DecidableEq, Repr

/-- `validateRequiredFields` (src/unnamed/part_002 lines 299-316).
`data` is the JS object as an association list (an absent key is an
absent entry).  The second parameter `requiredFields : string[]` is
modelled as `Option (List String)` so that a call site omitting the
argument (leaving it JS `undefined`) is representable; on `none` the
source expression `requiredFields.filter(...)` throws a `TypeError`,
modelled as `Except.error`.  A field is missing when its value is
absent, falsy (the empty string) or blank after trimming. -/
def validateRequiredFields (data : List (String × String))
    (requiredFields : Option (List String)) :
    Except JsError (Option AppError) :=
  match requiredFields with
  | none => .error .typeError
  | some fields =>
    let missingFields := fields.filter fun field =>
      match data.lookup field with
      | none => true
      | some s => jsTrim s == ""
    if missingFields.isEmpty then .ok none
    else
      .ok (some
        { type := .validation
          message := "Please fill in all required fields: "
            ++ String.intercalate ", " missingFields })

namespace TaskForm

/-- The Task Form's local `formData` state (src/unnamed/part_009 lines
479-486): the empty string in a date field is falsy, hence `Option` for
the two dates; `category_id` plays no part in validation. -/
structure FormData where
  title : String
  description : String
  due_date : Option Int
  reminder_date : Option Int
  priority : Priority
deriving DecidableEq, Repr

/-- `TaskForm.validateForm` (src/unnamed/part_009 lines 513-543),
returning the accumulated field-keyed error messages, or the JS
exception it throws.  The source's first step is
`validateRequiredFields(requiredFields)` — a call with a SINGLE
argument, so the function's second (required) parameter is
`undefined`, modelled as `none`; the remaining rules (reminder not
after due date, title at most 255 characters, description at most 1000
characters) run only if that call returns. -/
def validateForm (formData : FormData) : Except JsError (List (String × String)) := do
  let requiredFieldErrors ← validateRequiredFields
    [("title", jsTrim formData.title)] none
  let errors : List (String × String) :=
    match requiredFieldErrors with
    | some e => [("required", e.message)]
    | none => []
  let errors :=
    match formData.due_date, formData.reminder_date with
    | some dueDate, some reminderDate =>
      if reminderDate > dueDate then
        errors ++ [("reminder_date", "Reminder date cannot be after due date")]
      else errors
    | _, _ => errors
  let errors :=
    if (jsTrim formData.title).length > 255 then
      errors ++ [("title", "Title must be less than 255 characters")]
    else errors
  let errors :=
    if formData.description.length > 1000 then
      errors ++ [("description", "Description must be less than 1000 characters")]
    else errors
  return errors

/-- What a Task Form submission amounts to, viewed from the Data Access
Layer: exactly one create/update call, a validation-error report with
no call, or an exception escaping `handleSubmit` with no call and no
report. -/
inductive SubmitOutcome
  | dalCall (isUpdate : Bool)
  | validationErrorReported
  | exceptionThrown (e : JsError)
deriving DecidableEq, Repr

/-- `TaskForm.handleSubmit` (src/unnamed/part_009 lines 545-557): runs
`validateForm` outside any try/catch; a throw propagates out of the
handler; otherwise a non-empty error set reports a validation error and
returns, and only a clean validation issues the single
`database.tasks.update`/`database.tasks.create` call. -/
def handleSubmit (formData : FormData) (isEditing : Bool) : SubmitOutcome :=
  match validateForm formData with
  | .error e => .exceptionThrown e
  | .ok errors =>
    if errors.isEmpty then .dalCall isEditing else .validationErrorReported

/-- The local validation rules as claim C8 words them: title non-empty
after trimming and, when both dates are set, reminder not after due
date.  Written from the claim for comparison with the code. -/
def claimedValidationPasses (formData : FormData) : Bool :=
  jsTrim formData.title ≠ "" &&
    (match formData.due_date, formData.reminder_date with
     | some dueDate, some reminderDate => decide (reminderDate ≤ dueDate)
     | _, _ => true)

end TaskForm

namespace CategorySidebar

/-- A Data Access Layer request the Category Sidebar could issue while
loading. -/
inductive DbRequest
  | tasksGetAll
  | categoriesGetAll
deriving DecidableEq, Repr

/-- The requests the Category Sidebar issues when it loads: its only
loader, `loadCategories` (CategorySidebar.tsx lines 50-64), performs a
single `database.categories.getAll` call; no code path of the component
fetches tasks. -/
def loadRequests : List DbRequest := [.categoriesGetAll]

/-- The text nodes the Category Sidebar renders in its loaded,
dialog-closed state (CategorySidebar.tsx lines 144-287): the static
"Categories" heading and "All Tasks" button label, then per category
its name and, when present, its description.  The markup contains no
count badge for any category and no total count. -/
def renderTexts (categories : List Category) : List String :=
  "Categories" :: "All Tasks" ::
    categories.flatMap fun c =>
      c.name :: (match c.description with
                 | some d => [d]
                 | none => [])

/-- The per-category task count claim C9 (and the repository's own
CategorySidebar test suite, src/unnamed/part_006) requires the sidebar
to display: the number of loaded tasks whose category reference equals
the category's identifier.  Written from the claim for comparison with
the rendered output. -/
def claimedTaskCount (tasks : List Task) (categoryId : String) : Nat :=
  (tasks.filter fun t => t.category_id == some categoryId).length

/-- `CategorySidebar.handleDelete` (CategorySidebar.tsx lines 110-124)
together with the parent's reaction to `onCategorySelect`: on a
successful delete the category list drops the matching rows and, when
the deleted category is the active selection, `onCategorySelect(undefined)`
resets the selection; on failure both are untouched.  Returns the new
(category list, active selection) pair. -/
def handleDelete (categories : List Category) (selectedCategoryId : Option String)
    (categoryId : String) (success : Bool) : List Category × Option String :=
  if success then
    (categories.filter fun cat => !(cat.id == categoryId),
     if selectedCategoryId == some categoryId then none else selectedCategoryId)
  else
    (categories, selectedCategoryId)

end CategorySidebar

end TaskManager

namespace TaskManager

/-- A concrete pending task (no `completed_at`) used by witnesses and
counterexamples. -/
def sampleTask : Task :=
  { id := "t1"
    title := "Buy groceries"
    description := some "milk and eggs"
    completed := false
    due_date := some 1000
    reminder_date := none
    priority := .medium
    category_id := some "cat1"
    user_id := "user1"
    created_at := 10
    updated_at := 10
    completed_at := none }

/-- A concrete completed task, second row of the spec's scenario list. -/
def walkDogTask : Task :=
  { id := "t2"
    title := "Walk dog"
    description := none
    completed := true
    due_date := none
    reminder_date := none
    priority := .low
    category_id := none
    user_id := "user1"
    created_at := 20
    updated_at := 20
    completed_at := some 25 }

/-- A task with no due date, for the due-date comparator witness. -/
def noDueTaskA : Task :=
  { walkDogTask with id := "t3", title := "No due A" }

/-- A second task with no due date. -/
def noDueTaskB : Task :=
  { walkDogTask with id := "t4", title := "No due B" }

/-- A not-completed task whose due date lies in the past
(5 time units before `now = 0`). -/
def overdueTask : Task :=
  { sampleTask with id := "t5", title := "File taxes", due_date := some (-5) }

end TaskManager

/-- Claim C2 counterexample: with the in-memory list holding the single
pending task `sampleTask` (whose `completed_at` is null), a successful
toggle to completed — whose Data Access Layer call returns the row with
`completed_at` stamped — leaves the in-memory row with `completed_at`
still null, so the controller does NOT replace the matching row by the
server-returned row as the claim states. -/
theorem c2_toggle_keeps_stale_row :
    TaskList.controllerStep [sampleTask]
        (.toggle "t1" true (db.toggleComplete sampleTask true 100)) true
      ≠ TaskList.claimedReconcile [sampleTask]
        (.toggle "t1" true (db.toggleComplete sampleTask true 100)) true := by
  decide

/-- Claim C2 (amended): on success, create prepends the server-returned
row; update replaces the rows with matching identifier by the
server-returned row, leaving all other rows unchanged; TOGGLE only
overwrites the `completed` flag of the matching rows (the
server-returned row is discarded by the caller), leaving their other
fields and all other rows unchanged; delete removes exactly the
matching rows leaving all others in order; on failure the in-memory
array is exactly the array before the action. -/
theorem c2_reconciliation (tasks : List Task) (row srow : Task)
    (taskId : String) (c : Bool) :
    TaskList.controllerStep tasks (.create row) true = row :: tasks ∧
    TaskList.controllerStep tasks (.update row) true
      = tasks.map (fun t => if t.id == row.id then row else t) ∧
    (∀ t ∈ tasks, t.id ≠ row.id →
      t ∈ TaskList.controllerStep tasks (.update row) true) ∧
    TaskList.controllerStep tasks (.toggle taskId c srow) true
      = tasks.map (fun t =>
          if t.id == taskId then { t with completed := c } else t) ∧
    TaskList.controllerStep tasks (.remove taskId) true
      = tasks.filter (fun t => !(t.id == taskId)) ∧
    (TaskList.controllerStep tasks (.remove taskId) true).Sublist tasks ∧
    (∀ t ∈ TaskList.controllerStep tasks (.remove taskId) true, t.id ≠ taskId) ∧
    (∀ t ∈ tasks, t.id ≠ taskId →
      t ∈ TaskList.controllerStep tasks (.remove taskId) true) ∧
    (∀ a, TaskList.controllerStep tasks a false = tasks) := by
  refine ⟨rfl, rfl, ?_, rfl, rfl, ?_, ?_, ?_, ?_⟩
  · intro t ht hne
    simp only [TaskList.controllerStep, TaskList.handleTaskSave, if_pos, List.mem_map]
    exact ⟨t, ht, by simp [hne]⟩
  · exact List.filter_sublist tasks
  · intro t ht
    simp only [TaskList.controllerStep, TaskList.handleTaskDeleteSuccess,
      List.mem_filter, Bool.not_eq_eq_eq_not, Bool.not_true, beq_eq_false_iff_ne] at ht
    exact ht.2
  · intro t ht hne
    simp only [TaskList.controllerStep, TaskList.handleTaskDeleteSuccess,
      List.mem_filter]
    exact ⟨ht, by simp [hne]⟩
  · intro a
    cases a <;> rfl

/-- Witness for the amended claim C2 at a concrete input: a failed
action leaves the singleton list untouched, and a successful delete of
a different identifier keeps `sampleTask`. -/
theorem c2_reconciliation_witness :
    TaskList.controllerStep [sampleTask] (.remove "zzz") false = [sampleTask] ∧
    sampleTask ∈ TaskList.controllerStep [sampleTask] (.remove "zzz") true :=
  ⟨(c2_reconciliation [sampleTask] sampleTask sampleTask "zzz" true).2.2.2.2.2.2.2.2
      (.remove "zzz"),
   (c2_reconciliation [sampleTask] sampleTask sampleTask "zzz" true).2.2.2.2.2.2.2.1
      sampleTask (by simp) (by decide)⟩

/-- Claim C3: sorting by due date returns a permutation of the input
that is ascending by due timestamp, every task lacking a due date is
placed after every task having one (so no null-due task precedes a
non-null-due task), and the comparator makes two tasks without due
dates compare equal. -/
theorem c3_due_date_sort (l : List Task) :
    (TaskList.sortByDueDate l).Perm l ∧
    (TaskList.sortByDueDate l).Pairwise (fun a b =>
      (a.due_date = none → b.due_date = none) ∧
      (∀ x y, a.due_date = some x → b.due_date = some y → x ≤ y)) ∧
    (∀ a b : Task, a.due_date = none → b.due_date = none →
      TaskList.dueDateCmp a b = 0) := by
  refine ⟨List.perm_insertionSort _ l, ?_, ?_⟩
  · have h := List.sorted_insertionSort TaskList.dueLe l
    refine List.Pairwise.imp ?_ h
    intro a b hab
    unfold TaskList.dueLe at hab
    constructor
    · intro ha
      rcases hb : b.due_date with _ | y
      · rfl
      · rw [TaskList.dueDateCmp, ha, hb] at hab
        simp at hab
    · intro x y hx hy
      rw [TaskList.dueDateCmp, hx, hy] at hab
      simp only [] at hab
      omega
  · intro a b ha hb
    rw [TaskList.dueDateCmp, ha, hb]

/-- Witness for claim C3 at a concrete input: the two concrete tasks
without due dates compare equal. -/
theorem c3_due_date_sort_witness :
    TaskList.dueDateCmp noDueTaskA noDueTaskB = 0 :=
  (c3_due_date_sort []).2.2 noDueTaskA noDueTaskB rfl rfl

/-- Claim C4: sorting by priority returns a permutation of the input
ordered descending by the rank table, so every high-priority task
precedes every medium one, and every medium one precedes every low
one. -/
theorem c4_priority_sort (l : List Task) :
    (TaskList.sortByPriority l).Perm l ∧
    (TaskList.sortByPriority l).Pairwise (fun a b =>
      TaskList.priorityOrder b.priority ≤ TaskList.priorityOrder a.priority ∧
      (b.priority = .high → a.priority = .high) ∧
      (a.priority = .low → b.priority = .low)) := by
  refine ⟨List.perm_insertionSort _ l, ?_⟩
  have h := List.sorted_insertionSort TaskList.priorityLe l
  refine List.Pairwise.imp ?_ h
  intro a b hab
  unfold TaskList.priorityLe TaskList.priorityCmp at hab
  cases ha : a.priority <;> cases hb : b.priority <;>
    rw [ha, hb] at hab <;>
    simp_all [TaskList.priorityOrder] <;> omega

/-- Witness for claim C4 at a concrete input: the sorted two-element
list is a permutation of the input. -/
theorem c4_priority_sort_witness :
    (TaskList.sortByPriority [sampleTask, walkDogTask]).Perm
      [sampleTask, walkDogTask] :=
  (c4_priority_sort [sampleTask, walkDogTask]).1

namespace TaskManager.TaskList

/-- `startsWithChars hay needle` holds exactly when `needle` is a
prefix of `hay`. -/
theorem startsWithChars_iff :
    ∀ hay needle : List Char, startsWithChars hay needle = true ↔ needle <+: hay
  | _, [] => by simp [startsWithChars]
  | [], _ :: _ => by simp [startsWithChars]
  | c :: hs, n :: ns => by
    rw [startsWithChars, Bool.and_eq_true, beq_iff_eq,
      startsWithChars_iff hs ns, List.cons_prefix_iff]
    exact and_congr_left fun _ => eq_comm

/-- `includesChars hay needle` holds exactly when `needle` is a
contiguous substring of `hay`. -/
theorem includesChars_iff :
    ∀ hay needle : List Char, includesChars hay needle = true ↔ needle <:+: hay
  | [], needle => by
    simp [includesChars, List.isEmpty_iff]
  | c :: t, needle => by
    rw [includesChars]
    simp [startsWithChars_iff, includesChars_iff t needle, List.infix_cons_iff]

/-- `jsIncludes hay needle` holds exactly when `needle`'s characters
form a contiguous substring of `hay`'s characters. -/
theorem jsIncludes_iff (hay needle : String) :
    jsIncludes hay needle = true ↔ needle.data <:+: hay.data :=
  includesChars_iff hay.data needle.data

end TaskManager.TaskList

/-- Claim C5: the search filter keeps exactly the tasks whose
lowercased title or lowercased description has the lowercased term as
a contiguous substring (each field checked independently, a missing
description never matches); `jsIncludes` is exactly substring
containment; the empty term keeps every task; and a non-empty term
occurring in neither field of any task yields the empty result. -/
theorem c5_search_filter (searchTerm : String) (l : List Task) :
    (∀ hay needle : String,
      TaskList.jsIncludes hay needle = true ↔ needle.data <:+: hay.data) ∧
    TaskList.filteredTasks "" .all l = l ∧
    (∀ t, t ∈ TaskList.filteredTasks searchTerm .all l ↔
      t ∈ l ∧ (searchTerm = "" ∨
        (TaskList.jsToLower searchTerm).data <:+:
          (TaskList.jsToLower t.title).data ∨
        (∃ d, t.description = some d ∧
          (TaskList.jsToLower searchTerm).data <:+:
            (TaskList.jsToLower d).data))) ∧
    (searchTerm ≠ "" →
      (∀ t ∈ l,
        ¬ (TaskList.jsToLower searchTerm).data <:+:
            (TaskList.jsToLower t.title).data ∧
        (∀ d, t.description = some d →
          ¬ (TaskList.jsToLower searchTerm).data <:+:
              (TaskList.jsToLower d).data)) →
      TaskList.filteredTasks searchTerm .all l = []) := by
  have hchar : ∀ t : Task, TaskList.searchPred searchTerm t = true ↔
      (searchTerm = "" ∨
        (TaskList.jsToLower searchTerm).data <:+:
          (TaskList.jsToLower t.title).data ∨
        (∃ d, t.description = some d ∧
          (TaskList.jsToLower searchTerm).data <:+:
            (TaskList.jsToLower d).data)) := by
    intro t
    rw [TaskList.searchPred]
    by_cases hterm : searchTerm = ""
    · simp [hterm, String.isEmpty_iff]
    · rw [if_neg (by simpa [String.isEmpty_iff] using hterm)]
      rcases hd : t.description with _ | d
      · simp [hterm, TaskList.jsIncludes_iff]
      · simp [hterm, TaskList.jsIncludes_iff]
  refine ⟨TaskList.jsIncludes_iff, ?_, ?_, ?_⟩
  · exact List.filter_eq_self.mpr fun t _ => rfl
  · intro t
    rw [TaskList.filteredTasks, List.mem_filter, TaskList.filterPred]
    have hstat : TaskList.statusPred .all t = true := rfl
    simp [hstat, hchar t]
  · intro hne hall
    rw [TaskList.filteredTasks]
    refine List.filter_eq_nil_iff.mpr fun t ht => ?_
    rw [TaskList.filterPred]
    intro hcontra
    rcases Bool.and_eq_true .. |>.mp hcontra with ⟨hsearch, -⟩
    rcases (hchar t).mp hsearch with h | h | ⟨d, hd, h⟩
    · exact hne h
    · exact (hall t ht).1 h
    · exact (hall t ht).2 d hd h

/-- Witness for claim C5 at concrete inputs: the empty term keeps the
two-task list, and the term "xyz", present in neither field, empties
it. -/
theorem c5_search_filter_witness :
    TaskList.filteredTasks "" .all [sampleTask, walkDogTask]
        = [sampleTask, walkDogTask] ∧
    TaskList.filteredTasks "xyz" .all [sampleTask, walkDogTask] = [] :=
  ⟨(c5_search_filter "" [sampleTask, walkDogTask]).2.1,
   (c5_search_filter "xyz" [sampleTask, walkDogTask]).2.2.2 (by decide)
     (by decide)⟩

/-- Claim C6: with the search stage passing everything, the status
filter with `pending` keeps exactly the tasks with `completed = false`,
with `completed` exactly those with `completed = true`, and with `all`
every task; hence the pending and completed results contain no common
member and together cover exactly the result under `all`. -/
theorem c6_status_filter (l : List Task) :
    TaskList.filteredTasks "" .pending l = l.filter (fun t => !t.completed) ∧
    TaskList.filteredTasks "" .completed l = l.filter (fun t => t.completed) ∧
    TaskList.filteredTasks "" .all l = l ∧
    (∀ t ∈ TaskList.filteredTasks "" .pending l, t.completed = false) ∧
    (∀ t ∈ TaskList.filteredTasks "" .completed l, t.completed = true) ∧
    (∀ t, t ∈ TaskList.filteredTasks "" .all l ↔
      t ∈ TaskList.filteredTasks "" .pending l ∨
        t ∈ TaskList.filteredTasks "" .completed l) ∧
    (∀ t, ¬ (t ∈ TaskList.filteredTasks "" .pending l ∧
        t ∈ TaskList.filteredTasks "" .completed l)) := by
  have hempty : "".isEmpty = true := rfl
  have hpend : ∀ t : Task, TaskList.filterPred "" .pending t = !t.completed := by
    intro t
    cases h : t.completed <;>
      simp [TaskList.filterPred, TaskList.searchPred, TaskList.statusPred, h,
        hempty]
  have hcomp : ∀ t : Task, TaskList.filterPred "" .completed t = t.completed := by
    intro t
    cases h : t.completed <;>
      simp [TaskList.filterPred, TaskList.searchPred, TaskList.statusPred, h,
        hempty]
  have hall : ∀ t : Task, TaskList.filterPred "" .all t = true := fun t => rfl
  have e1 : TaskList.filteredTasks "" .pending l = l.filter (fun t => !t.completed) :=
    List.filter_congr fun t _ => hpend t
  have e2 : TaskList.filteredTasks "" .completed l = l.filter (fun t => t.completed) :=
    List.filter_congr fun t _ => hcomp t
  have e3 : TaskList.filteredTasks "" .all l = l :=
    List.filter_eq_self.mpr fun t _ => hall t
  refine ⟨e1, e2, e3, ?_, ?_, ?_, ?_⟩
  · intro t ht
    rw [e1, List.mem_filter] at ht
    simpa using ht.2
  · intro t ht
    rw [e2, List.mem_filter] at ht
    exact ht.2
  · intro t
    rw [e1, e2, e3, List.mem_filter, List.mem_filter]
    cases h : t.completed <;> simp [h]
  · intro t ⟨hp, hc⟩
    rw [e1, List.mem_filter] at hp
    rw [e2, List.mem_filter] at hc
    rw [hc.2] at hp
    exact Bool.false_ne_true (by simpa using hp.2)

/-- Witness for claim C6 at the spec's own scenario: of the pending
"Buy groceries" and the completed "Walk dog", the pending filter keeps
exactly "Buy groceries", and no task is in both results. -/
theorem c6_status_filter_witness :
    TaskList.filteredTasks "" .pending [sampleTask, walkDogTask] = [sampleTask] ∧
    ¬ (sampleTask ∈ TaskList.filteredTasks "" .pending [sampleTask, walkDogTask] ∧
        sampleTask ∈ TaskList.filteredTasks "" .completed [sampleTask, walkDogTask]) :=
  ⟨((c6_status_filter [sampleTask, walkDogTask]).1).trans (by decide),
   (c6_status_filter [sampleTask, walkDogTask]).2.2.2.2.2.2 sampleTask⟩

/-- Claim C7 counterexample: a not-completed task whose due date lies
in the past is returned by `database.tasks.getUpcoming` (the query has
no lower bound on `due_date`), while the claim's "due within N days
from now" set excludes it — the two disagree on a concrete database. -/
theorem c7_overdue_is_returned :
    db.getUpcoming [overdueTask] "user1" 0 7 = [overdueTask] ∧
    TaskList.claimedUpcoming [overdueTask] "user1" 0 7 = [] ∧
    db.getUpcoming [overdueTask] "user1" 0 7
      ≠ TaskList.claimedUpcoming [overdueTask] "user1" 0 7 := by
  decide

/-- Claim C7 (amended): the upcoming-tasks query returns exactly the
owner's tasks that are not completed and have a (non-null) due date at
most N days after now — including tasks already overdue, as the query
has no lower bound — ordered ascending by due date. -/
theorem c7_upcoming (rows : List Task) (userId : String) (now days : Int) :
    (∀ t, t ∈ db.getUpcoming rows userId now days ↔
      t ∈ rows ∧ t.user_id = userId ∧ t.completed = false ∧
        ∃ d, t.due_date = some d ∧ d ≤ now + days * 86400000) ∧
    (db.getUpcoming rows userId now days).Pairwise (fun a b =>
      ∀ x y, a.due_date = some x → b.due_date = some y → x ≤ y) := by
  constructor
  · intro t
    rw [db.getUpcoming]
    rw [List.mem_insertionSort, List.mem_filter]
    rcases hd : t.due_date with _ | d <;>
      simp [hd, Bool.and_eq_true, beq_iff_eq, and_assoc]
  · have h := List.sorted_insertionSort TaskList.dueLe
      (rows.filter fun t =>
        t.user_id == userId && t.completed == false &&
          (match t.due_date with
           | some d => decide (d ≤ now + days * 86400000)
           | none => false))
    refine List.Pairwise.imp ?_ h
    intro a b hab x y hx hy
    unfold TaskList.dueLe at hab
    rw [TaskList.dueDateCmp, hx, hy] at hab
    simp only [] at hab
    omega

/-- Witness for the amended claim C7 at a concrete input: the overdue,
not-completed task is a member of the query result. -/
theorem c7_upcoming_witness :
    overdueTask ∈ db.getUpcoming [overdueTask] "user1" 0 7 :=
  ((c7_upcoming [overdueTask] "user1" 0 7).1 overdueTask).mpr
    ⟨by decide, rfl, rfl, ⟨-5, rfl, by decide⟩⟩

namespace TaskManager

/-- A fully valid Task Form state: non-blank title, reminder not after
the due date. -/
def goodFormData : TaskForm.FormData :=
  { title := "Buy milk"
    description := ""
    due_date := some 200
    reminder_date := some 100
    priority := .medium }

/-- A Task Form state violating the title rule (blank after trim). -/
def blankTitleFormData : TaskForm.FormData :=
  { goodFormData with title := "   " }

/-- The "Work" category of the repository's CategorySidebar test
fixture. -/
def workCategory : Category :=
  { id := "cat1"
    name := "Work"
    color := "#3B82F6"
    description := none
    user_id := "user1" }

/-- The "Personal" category of the test fixture. -/
def personalCategory : Category :=
  { id := "cat2"
    name := "Personal"
    color := "#10B981"
    description := none
    user_id := "user1" }

/-- The "Shopping" category of the test fixture. -/
def shoppingCategory : Category :=
  { id := "cat3"
    name := "Shopping"
    color := "#F59E0B"
    description := none
    user_id := "user1" }

/-- The three tasks of the CategorySidebar test fixture: two in "Work",
one in "Personal", none in "Shopping". -/
def sidebarTasks : List Task :=
  [ { sampleTask with
        id := "s1"
        title := "Work Task"
        category_id := some "cat1" },
    { sampleTask with
        id := "s2"
        title := "Personal Task"
        category_id := some "cat2"
        completed := true },
    { sampleTask with
        id := "s3"
        title := "Another Work Task"
        category_id := some "cat1" } ]

end TaskManager

/-- Claim C8 (code bug): `TaskForm.handleSubmit` never reaches the Data
Access Layer — `validateForm` invokes `validateRequiredFields` with its
required second argument missing, so every submission throws a
`TypeError` before any rule is checked: a fully valid submission (the
claim's validation rules pass) issues no create/update call, and an
invalid one reports no validation error either. -/
theorem c8_submit_always_throws :
    (∀ (formData : TaskForm.FormData) (isEditing : Bool),
      TaskForm.handleSubmit formData isEditing
        = .exceptionThrown .typeError) ∧
    TaskForm.claimedValidationPasses goodFormData = true ∧
    TaskForm.handleSubmit goodFormData false = .exceptionThrown .typeError ∧
    TaskForm.claimedValidationPasses blankTitleFormData = false ∧
    TaskForm.handleSubmit blankTitleFormData false
      = .exceptionThrown .typeError := by
  refine ⟨fun formData isEditing => rfl, by decide, rfl, by decide, rfl⟩

/-- Claim C9 (code bug): the Category Sidebar's only load issues a
single categories request and never fetches tasks, and its rendered
output for the repository's own test fixture is just the static labels
and the category names — it contains none of the counts (2, 1, 0 per
category, 3 in total) that the claim and the repository's
CategorySidebar tests require. -/
theorem c9_sidebar_shows_no_counts :
    CategorySidebar.loadRequests = [.categoriesGetAll] ∧
    CategorySidebar.DbRequest.tasksGetAll ∉ CategorySidebar.loadRequests ∧
    CategorySidebar.renderTexts [workCategory, personalCategory, shoppingCategory]
      = ["Categories", "All Tasks", "Work", "Personal", "Shopping"] ∧
    CategorySidebar.claimedTaskCount sidebarTasks "cat1" = 2 ∧
    CategorySidebar.claimedTaskCount sidebarTasks "cat2" = 1 ∧
    CategorySidebar.claimedTaskCount sidebarTasks "cat3" = 0 ∧
    sidebarTasks.length = 3 ∧
    "2" ∉ CategorySidebar.renderTexts
      [workCategory, personalCategory, shoppingCategory] ∧
    "1" ∉ CategorySidebar.renderTexts
      [workCategory, personalCategory, shoppingCategory] ∧
    "0" ∉ CategorySidebar.renderTexts
      [workCategory, personalCategory, shoppingCategory] ∧
    "3" ∉ CategorySidebar.renderTexts
      [workCategory, personalCategory, shoppingCategory] := by
  decide

/-- Claim C10: a successful category delete removes exactly the rows
with the matching identifier (order preserved, all others kept), resets
the active selection to the "all tasks" scope exactly when the deleted
category was selected, leaves the selection alone otherwise, and a
failed delete changes nothing. -/
theorem c10_category_delete (categories : List Category)
    (sel : Option String) (categoryId : String) :
    (CategorySidebar.handleDelete categories sel categoryId true).1
      = categories.filter (fun c => !(c.id == categoryId)) ∧
    (∀ c, c ∈ (CategorySidebar.handleDelete categories sel categoryId true).1 ↔
      c ∈ categories ∧ c.id ≠ categoryId) ∧
    (CategorySidebar.handleDelete categories sel categoryId true).1.Sublist
      categories ∧
    (CategorySidebar.handleDelete categories sel categoryId true).2
      = (if sel = some categoryId then none else sel) ∧
    (sel = some categoryId →
      (CategorySidebar.handleDelete categories sel categoryId true).2 = none) ∧
    (sel ≠ some categoryId →
      (CategorySidebar.handleDelete categories sel categoryId true).2 = sel) ∧
    CategorySidebar.handleDelete categories sel categoryId false
      = (categories, sel) := by
  have hsel : (CategorySidebar.handleDelete categories sel categoryId true).2
      = (if sel = some categoryId then none else sel) := by
    by_cases h : sel = some categoryId <;>
      simp [CategorySidebar.handleDelete, h]
  refine ⟨rfl, ?_, ?_, hsel, ?_, ?_, rfl⟩
  · intro c
    show c ∈ categories.filter (fun c => !(c.id == categoryId)) ↔ _
    rw [List.mem_filter]
    simp
  · exact List.filter_sublist categories
  · intro h
    rw [hsel, if_pos h]
  · intro h
    rw [hsel, if_neg h]

/-- Witness for claim C10 at a concrete input: deleting the selected
"Work" category resets the selection, deleting it while "Personal" is
selected does not. -/
theorem c10_category_delete_witness :
    (CategorySidebar.handleDelete [workCategory] (some "cat1") "cat1" true).2
      = none ∧
    (CategorySidebar.handleDelete [workCategory] (some "cat2") "cat1" true).2
      = some "cat2" :=
  ⟨(c10_category_delete [workCategory] (some "cat1") "cat1").2.2.2.2.1 rfl,
   (c10_category_delete [workCategory] (some "cat2") "cat1").2.2.2.2.2.1
     (by decide)⟩
